import Mathlib

/-!
Verification of the Bananas distributed task-queue core as described by the
repository's documentation (docs/getting-started/quickstart.md,
docs/api-reference/main-api.md, docs/guides/deployment.md).  The repository is
a documentation site: the queue engine itself ships no code here, so the
operations below are shallow embeddings of the code snippets that appear in
the documentation (the Executor, the exponential-backoff formula, the
BRPOPLPUSH-based dequeue, the worker-mode table) completed, where the
documentation shows no code, by definitions modelled from the specification's
words; those are marked `Modelled from the spec:` in their doc comments.
-/

namespace Bananas

/-- Job priority, from the Client SDK API reference (`PriorityHigh`,
`PriorityNormal`, `PriorityLow`). -/
inductive Priority where
  | high
  | normal
  | low
deriving DecidableEq, Repr

/-- Job status, from the Client SDK API reference (`StatusPending`,
`StatusProcessing`, `StatusCompleted`, `StatusFailed`, `StatusScheduled`). -/
inductive JobStatus where
  | pending
  | processing
  | scheduled
  | completed
  | failed
deriving DecidableEq, Repr

/-- A job record, from the `Job` struct of the Client SDK API reference.
The payload, description and the two wall-clock timestamps are irrelevant to
the verified properties and are omitted; `scheduledFor` is kept as seconds
since an arbitrary epoch. -/
structure Job where
  id : String
  name : String
  priority : Priority
  routingKey : Option String
  attempts : Nat
  maxRetries : Nat
  status : JobStatus
  scheduledFor : Option Nat
  error : Option String
deriving DecidableEq, Repr

/-- A queue of the Priority Queue Set is selected by the pair (routing key,
priority): `bananas:queue:high` is `(none, high)`, `bananas:queue:gpu:high`
is `(some "gpu", high)`, following the queue structure of the architecture
overview. -/
abbrev QueueKey := Option String × Priority

/-- The queue a job is enqueued into: its own routing key and priority. -/
def queueKeyOf (j : Job) : QueueKey := (j.routingKey, j.priority)

/-- Modelled from the spec: the broker state visible to the core.  `queues`
maps each queue key to its FIFO list of job ids (head = next to dequeue,
enqueue appends at the tail), `processing` is the processing set
(`bananas:queue:processing`), `scheduled` the Scheduled Set (score = due
time, as in the sorted set `bananas:queue:scheduled`), `dead` the Dead
Letter Queue (`bananas:queue:dead`). -/
structure Sys where
  queues : QueueKey → List String
  processing : List String
  scheduled : List (Nat × Job)
  dead : List Job

/-- `listPushTail`: enqueue appends the job id at the tail of the FIFO list
selected by the queue key, as in the Priority Queue Set contract. -/
def enqueue (k : QueueKey) (jid : String) (st : Sys) : Sys :=
  { st with queues := fun q => if q = k then st.queues q ++ [jid] else st.queues q }

/-- The blocking dequeue (Redis `BRPOPLPUSH` in the architecture overview):
scan the caller's eligible queue keys in the given order, pop the head of the
first non-empty list and, in the same atomic operation, push the job into the
processing set.  `none` models the timeout outcome when every eligible queue
is empty. -/
def dequeueFrom (keys : List QueueKey) (st : Sys) : Option (String × Sys) :=
  match keys with
  | [] => none
  | k :: rest =>
    match st.queues k with
    | [] => dequeueFrom rest st
    | j :: tl =>
      some (j, { st with
        queues := fun q => if q = k then tl else st.queues q,
        processing := j :: st.processing })

/-- Worker modes, from the architecture overview's worker-mode table:
Thin (high only), Default (high and normal), Specialized (all three
priorities), Job-Specialized (specific routing keys only), Scheduler-Only
(no job processing). -/
inductive WorkerMode where
  | thin
  | defaultMode
  | specialized
  | jobSpecialized (keys : List String)
  | schedulerOnly
deriving DecidableEq, Repr

/-- The queue keys a worker of each mode is eligible to dequeue from, in
strict high > normal > low order, per the worker-mode table and the priority
processing flow. -/
def eligibleKeys : WorkerMode → List QueueKey
  | .thin => [(none, .high)]
  | .defaultMode => [(none, .high), (none, .normal)]
  | .specialized => [(none, .high), (none, .normal), (none, .low)]
  | .jobSpecialized ks =>
      ks.foldr (fun r acc => (some r, .high) :: (some r, .normal) :: (some r, .low) :: acc) []
  | .schedulerOnly => []

/-- A worker's dequeue: the blocking dequeue over its mode's eligible keys. -/
def workerDequeue (m : WorkerMode) (st : Sys) : Option (String × Sys) :=
  dequeueFrom (eligibleKeys m) st

/-- The exponential-backoff delay, from the architecture overview's snippet
`retryDelay := time.Duration(math.Pow(2, float64(job.Attempts))) * time.Second`
with `job.Attempts` counting the invocations executed so far (1st retry:
2^1 = 2s, 2nd: 2^2 = 4s, 3rd: 2^3 = 8s, ...). -/
def backoffDelay (attempts : Nat) : Nat := 2 ^ attempts

/-- Whether a job status is terminal (completed, or failed into the Dead
Letter Queue). -/
def isTerminal : JobStatus → Bool
  | .completed => true
  | .failed => true
  | _ => false

/-- Modelled from the spec: the Dispatcher's job-record update on a failed
handler invocation.  The attempt count is incremented; while the count stays
within the max-retry budget (the documented scenario gives a job with
maxRetries = 3 exactly 4 invocations: 1 initial + 3 retries, so the k-th
retry happens while the incremented count is ≤ maxRetries) the job is
rescheduled with backoff delay `2 ^ attempts` seconds; otherwise it becomes
terminally failed for the Dead Letter Queue. -/
def jobFailure (now : Nat) (job : Job) : Job :=
  let a := job.attempts + 1
  if a ≤ job.maxRetries then
    { job with attempts := a, status := .scheduled,
               scheduledFor := some (now + backoffDelay a) }
  else
    { job with attempts := a, status := .failed, scheduledFor := none }

/-- Modelled from the spec: the Dispatcher's broker update on a failed
handler invocation.  The job is removed from the processing set and either
written into the Scheduled Set with status `scheduled` and
`scheduledFor = now + 2 ^ attempts`, or moved to the Dead Letter Queue with
terminal `failed` status once the retry budget is exhausted. -/
def onFailure (now : Nat) (job : Job) (err : String) (st : Sys) : Sys :=
  let a := job.attempts + 1
  if a ≤ job.maxRetries then
    let j := { job with
      attempts := a, status := JobStatus.scheduled,
      scheduledFor := some (now + backoffDelay a), error := some err }
    { st with processing := st.processing.filter (fun i => decide (i ≠ job.id)),
              scheduled := (now + backoffDelay a, j) :: st.scheduled }
  else
    let j := { job with
      attempts := a, status := JobStatus.failed,
      scheduledFor := none, error := some err }
    { st with processing := st.processing.filter (fun i => decide (i ≠ job.id)),
              dead := j :: st.dead }

/-- Outcome of one handler invocation as seen by the Dispatcher. -/
inductive HandlerOutcome where
  | ok (data : String)
  | fail (err : String)
deriving DecidableEq, Repr

/-- The handler registry: the dynamic mapping from job name to handler,
populated at worker startup. -/
abbrev Registry := List (String × (Job → HandlerOutcome))

/-- Handler lookup by job name, as in `e.registry.Get(job.Name)` of the
Executor snippet. -/
def lookupHandler (reg : Registry) (name : String) : Option (Job → HandlerOutcome) :=
  (reg.find? (fun p => decide (p.1 = name))).map Prod.snd

/-- Modelled from the spec: one Dispatcher step on a dequeued job.  A missing
handler is a terminal `HandlerNotFound` outcome: the job moves directly to
the Dead Letter Queue with its attempt count untouched.  A successful
invocation removes the job from the processing set; a failed one goes
through `onFailure`.  The function is total: no outcome crashes the
worker. -/
def dispatch (reg : Registry) (now : Nat) (job : Job) (st : Sys) : Sys :=
  match lookupHandler reg job.name with
  | none =>
    let j := { job with
      status := JobStatus.failed,
      error := some ("handler not found: " ++ job.name) }
    { st with processing := st.processing.filter (fun i => decide (i ≠ job.id)),
              dead := j :: st.dead }
  | some h =>
    match h job with
    | .ok _ => { st with processing := st.processing.filter (fun i => decide (i ≠ job.id)) }
    | .fail e => onFailure now job e st

/-- Modelled from the spec: one handler invocation at the job-record level.
`behave n` tells whether the invocation following `n` executed attempts
succeeds; on success the job completes, on failure it goes through
`jobFailure`. -/
def stepJob (behave : Nat → Bool) (now : Nat) (job : Job) : Job :=
  if behave job.attempts then { job with status := JobStatus.completed }
  else jobFailure now job

/-- Modelled from the spec: run a job's handler invocations until it reaches
a terminal state, bounded by `fuel`, returning the number of invocations
executed together with the final job record. -/
def runJob (behave : Nat → Bool) (now : Nat) : Nat → Job → Nat × Job
  | 0, j => (0, j)
  | fuel + 1, j =>
    if isTerminal j.status then (0, j)
    else
      let p := runJob behave now fuel (stepJob behave now j)
      (p.1 + 1, p.2)

/-- Modelled from the spec: one Retry/Scheduler Loop tick.  All Scheduled
Set entries whose due time is ≤ now are removed from the Scheduled Set and
their ids appended to the priority queue selected by each job's original
routing key and priority (`sortedSetPopRangeByScore` followed by
`listPushTail`). -/
def promoteDue (now : Nat) (st : Sys) : Sys :=
  let due := st.scheduled.filter (fun p => decide (p.1 ≤ now))
  { st with
    queues := fun k =>
      st.queues k ++ (due.filter (fun p => decide (queueKeyOf p.2 = k))).map (fun p => p.2.id),
    scheduled := st.scheduled.filter (fun p => !decide (p.1 ≤ now)) }

/-- A sequence of Retry/Scheduler Loop ticks at the given times. -/
def runTicks : List Nat → Sys → Sys
  | [], st => st
  | t :: ts, st => runTicks ts (promoteDue t st)

/-- A job result, from the `Result` struct of the Client SDK API reference
(`Status` is the string "completed" or "failed"). -/
structure ResultR where
  jobID : String
  status : String
  data : String
  error : String
deriving DecidableEq, Repr

/-- Modelled from the spec: the Result Backend's store.  `entries` keeps,
per job id, the stored result and its absolute expiry instant. -/
structure Backend where
  successTTL : Nat
  failureTTL : Nat
  entries : List (String × ResultR × Nat)
deriving DecidableEq, Repr

/-- `store(jobID, result)`: writes the result with TTL = successTTL if the
result status is "completed", else failureTTL, replacing any previous entry
for the same job id. -/
def Backend.store (b : Backend) (jobID : String) (r : ResultR) (now : Nat) : Backend :=
  let ttl := if r.status = "completed" then b.successTTL else b.failureTTL
  { b with entries := (jobID, r, now + ttl) :: b.entries.filter (fun e => decide (e.1 ≠ jobID)) }

/-- Outcome of a non-blocking result read. -/
inductive GetOutcome where
  | found (r : ResultR)
  | notFound
deriving DecidableEq, Repr

/-- `get(jobID)`: non-blocking read; `notFound` if the id is absent or its
entry's TTL has elapsed. -/
def Backend.get (b : Backend) (jobID : String) (now : Nat) : GetOutcome :=
  match b.entries.find? (fun e => decide (e.1 = jobID)) with
  | none => .notFound
  | some e => if now < e.2.2 then .found e.2.1 else .notFound

/-- The Executor, from the architecture overview's snippet: a handler
registry and a result backend (kept here as the stored `(job id, result)`
pairs). -/
structure Executor where
  registry : List (String × (Job → ResultR))
  resultBackend : List (String × ResultR)

/-- `Executor.Execute`, transcribed from the architecture overview's code:
look up the handler by job name, return the "handler not found" error if
absent; otherwise invoke the handler, store its result (whatever its
status) in the result backend, and return nil.  The first component is the
returned error, the second the result backend after the call. -/
def Executor.Execute (e : Executor) (job : Job) : Option String × List (String × ResultR) :=
  match (e.registry.find? (fun p => decide (p.1 = job.name))).map Prod.snd with
  | none => (some ("handler not found: " ++ job.name), e.resultBackend)
  | some handler =>
    let result := handler job
    (none, (job.id, result) :: e.resultBackend)

/-- Outcome of `awaitResult` / `SubmitAndWait` as seen by the caller. -/
inductive WaitOutcome where
  | result (r : ResultR)
  | timeout
deriving DecidableEq, Repr

/-- Modelled from the spec: `awaitResult(jobID, timeout)` over the job's
completion-notification stream, given as (publication time, result) pairs;
the first notification published by the deadline is returned, otherwise the
call times out. -/
def awaitResult (notifs : List (Nat × ResultR)) (deadline : Nat) : WaitOutcome :=
  match notifs.find? (fun p => decide (p.1 ≤ deadline)) with
  | some p => .result p.2
  | none => .timeout

/-- Modelled from the spec: `SubmitAndWait` composed of an already performed
submission and `awaitResult` with deadline `submitTime + timeoutT`.  The job
record store is returned unchanged: the `Timeout` outcome is caller-facing
only and never mutates job state. -/
def submitAndWaitRun (jobs : List (String × Job)) (notifs : List (Nat × ResultR))
    (submitTime timeoutT : Nat) : WaitOutcome × List (String × Job) :=
  (awaitResult notifs (submitTime + timeoutT), jobs)

/-! Concrete fixtures used to evaluate the verified operations on the
scenarios of the documentation. -/

/-- The documented retry scenario's job: "send_email", priority high,
maxRetries = 3, no attempts yet. -/
def emailJob : Job :=
  { id := "job1", name := "send_email", priority := .high, routingKey := none,
    attempts := 0, maxRetries := 3, status := .pending, scheduledFor := none,
    error := none }

/-- A broker state whose default high/normal/low queues hold
["h1", "h2"], ["n1"] and ["l1"]. -/
def wst : Sys :=
  { queues := fun q =>
      if q = ((none : Option String), Priority.high) then ["h1", "h2"]
      else if q = ((none : Option String), Priority.normal) then ["n1"]
      else if q = ((none : Option String), Priority.low) then ["l1"]
      else [],
    processing := [], scheduled := [], dead := [] }

/-- The eligible keys of a Default-mode worker, as an explicit list. -/
def keysHN : List QueueKey := [(none, .high), (none, .normal)]

/-- The state after one dequeue over `keysHN` from `wst`. -/
def wstA : Sys := ((dequeueFrom keysHN wst).getD ("", wst)).2

/-- The state after a second dequeue over `keysHN`. -/
def wstB : Sys := ((dequeueFrom keysHN wstA).getD ("", wstA)).2

/-- The state after a Thin-mode dequeue from `wst`. -/
def wstT : Sys := ((workerDequeue .thin wst).getD ("", wst)).2

/-- An empty broker state with one job id in the processing set. -/
def stProc : Sys :=
  { queues := fun _ => [], processing := ["j2"], scheduled := [], dead := [] }

/-- A job mid-processing with retries left. -/
def job2 : Job :=
  { id := "j2", name := "resize_image", priority := .normal, routingKey := none,
    attempts := 0, maxRetries := 3, status := .processing, scheduledFor := none,
    error := none }

/-- A job whose handler name is registered nowhere. -/
def job5 : Job :=
  { id := "j5", name := "unregistered_task", priority := .normal, routingKey := none,
    attempts := 0, maxRetries := 3, status := .processing, scheduledFor := none,
    error := none }

/-- A job deferred to time 100. -/
def job6 : Job :=
  { id := "j6", name := "send_reminder", priority := .normal, routingKey := none,
    attempts := 0, maxRetries := 3, status := .scheduled, scheduledFor := some 100,
    error := none }

/-- A broker state holding only `job6` in the Scheduled Set, due at 100. -/
def st6 : Sys :=
  { queues := fun _ => [], processing := [], scheduled := [(100, job6)], dead := [] }

/-- A Result Backend with the documented TTL configuration (success 3600 s,
failure 86400 s) and no entries. -/
def bk7 : Backend := { successTTL := 3600, failureTTL := 86400, entries := [] }

/-- A completed result for job "j7". -/
def res7 : ResultR := { jobID := "j7", status := "completed", data := "ok", error := "" }

/-- A failed result used to watch the Executor store failing invocations. -/
def res9 : ResultR := { jobID := "j9", status := "failed", data := "", error := "boom" }

/-- A handler whose every invocation fails. -/
def failingHandler : Job → ResultR := fun _ => res9

/-- An Executor registering `failingHandler` under "task9". -/
def exec9 : Executor := { registry := [("task9", failingHandler)], resultBackend := [] }

/-- A job named "task9" for `exec9`. -/
def job9 : Job :=
  { id := "j9", name := "task9", priority := .normal, routingKey := none,
    attempts := 0, maxRetries := 3, status := .processing, scheduledFor := none,
    error := none }

/-- A completed result for the submit-and-wait scenario. -/
def res8 : ResultR := { jobID := "j8", status := "completed", data := "42", error := "" }

end Bananas

/-! Theorems. -/

namespace Bananas

/-- Claim C2: when a handler invocation fails while retries remain
(attempt count below the max-retry budget after incrementing), the
Dispatcher schedules the retry with delay exactly `2 ^ attempts` seconds —
the k-th retry is delayed 2^k seconds (2 s, 4 s, 8 s for k = 1, 2, 3) — by
writing the job with status `scheduled` and
`scheduledFor = now + delay` into the Scheduled Set and removing it from
the processing set. -/
theorem retry_backoff_schedule (now : Nat) (job : Job) (err : String) (st : Sys)
    (h : job.attempts + 1 < job.maxRetries) :
    onFailure now job err st =
      { st with
        processing := st.processing.filter (fun i => decide (i ≠ job.id)),
        scheduled := (now + 2 ^ (job.attempts + 1),
          { job with
            attempts := job.attempts + 1, status := JobStatus.scheduled,
            scheduledFor := some (now + 2 ^ (job.attempts + 1)),
            error := some err }) :: st.scheduled }
    ∧ backoffDelay 1 = 2 ∧ backoffDelay 2 = 4 ∧ backoffDelay 3 = 8 := by
  refine ⟨?_, rfl, rfl, rfl⟩
  rw [onFailure]
  simp only [backoffDelay, if_pos (Nat.le_of_lt h)]

/-- Witness for C2: the retry of a failing job with 0 executed attempts and
budget 3 is rescheduled 2^1 = 2 seconds after time 5. -/
theorem retry_backoff_schedule_witness :
    onFailure 5 job2 "boom" stProc =
      { stProc with
        processing := stProc.processing.filter (fun i => decide (i ≠ job2.id)),
        scheduled := (5 + 2 ^ (job2.attempts + 1),
          { job2 with
            attempts := job2.attempts + 1, status := JobStatus.scheduled,
            scheduledFor := some (5 + 2 ^ (job2.attempts + 1)),
            error := some "boom" }) :: stProc.scheduled }
    ∧ backoffDelay 1 = 2 ∧ backoffDelay 2 = 4 ∧ backoffDelay 3 = 8 :=
  retry_backoff_schedule 5 job2 "boom" stProc (by decide)

/-- Claim C5: a dequeued job whose handler name is not in the registry is
failed terminally and moved directly to the Dead Letter Queue, with its
attempt count unchanged (no retry consumed), no entry written into the
Scheduled Set, and the Dispatcher step returning normally. -/
theorem handler_not_found_dead_letter (reg : Registry) (now : Nat) (job : Job) (st : Sys)
    (h : lookupHandler reg job.name = none) :
    dispatch reg now job st =
      { st with
        processing := st.processing.filter (fun i => decide (i ≠ job.id)),
        dead := { job with
          status := JobStatus.failed,
          error := some ("handler not found: " ++ job.name) } :: st.dead }
    ∧ ({ job with
         status := JobStatus.failed,
         error := some ("handler not found: " ++ job.name) } : Job).attempts = job.attempts
    ∧ (dispatch reg now job st).scheduled = st.scheduled := by
  have hd : dispatch reg now job st =
      { st with
        processing := st.processing.filter (fun i => decide (i ≠ job.id)),
        dead := { job with
          status := JobStatus.failed,
          error := some ("handler not found: " ++ job.name) } :: st.dead } := by
    rw [dispatch, h]
  exact ⟨hd, rfl, by rw [hd]⟩

/-- Witness for C5: dispatching `job5` against the empty registry moves it
to the Dead Letter Queue with 0 attempts. -/
theorem handler_not_found_dead_letter_witness :
    dispatch [] 0 job5 stProc =
      { stProc with
        processing := stProc.processing.filter (fun i => decide (i ≠ job5.id)),
        dead := { job5 with
          status := JobStatus.failed,
          error := some ("handler not found: " ++ job5.name) } :: stProc.dead }
    ∧ ({ job5 with
         status := JobStatus.failed,
         error := some ("handler not found: " ++ job5.name) } : Job).attempts = job5.attempts
    ∧ (dispatch [] 0 job5 stProc).scheduled = stProc.scheduled :=
  handler_not_found_dead_letter [] 0 job5 stProc rfl

/-- Claim C8: submit-and-wait with timeout T returns the job's result when
its completion notification arrives by `submitTime + T`, and times out
otherwise; either way the job record store is returned unchanged, and the
Timeout outcome is a distinct constructor from any job-level result. -/
theorem submit_and_wait_timeout (jobs : List (String × Job))
    (tc submitTime timeoutT : Nat) (r : ResultR) :
    (tc ≤ submitTime + timeoutT →
      submitAndWaitRun jobs [(tc, r)] submitTime timeoutT = (WaitOutcome.result r, jobs))
    ∧ (submitTime + timeoutT < tc →
      submitAndWaitRun jobs [(tc, r)] submitTime timeoutT = (WaitOutcome.timeout, jobs))
    ∧ (∀ r', (WaitOutcome.timeout : WaitOutcome) ≠ WaitOutcome.result r') := by
  refine ⟨?_, ?_, fun r' h => by cases h⟩
  · intro h
    rw [submitAndWaitRun, awaitResult]
    simp [List.find?, h]
  · intro h
    rw [submitAndWaitRun, awaitResult]
    simp [List.find?, Nat.not_le_of_lt h]

/-- Witness for C8: a job completing at time 10 is returned by a wait with
deadline 0 + 30, and times out for a wait with deadline 0 + 5, each leaving
the (empty) job record store unchanged. -/
theorem submit_and_wait_timeout_witness :
    submitAndWaitRun [] [(10, res8)] 0 30 = (WaitOutcome.result res8, [])
    ∧ submitAndWaitRun [] [(10, res8)] 0 5 = (WaitOutcome.timeout, []) :=
  ⟨(submit_and_wait_timeout [] 10 0 30 res8).1 (by decide),
   (submit_and_wait_timeout [] 10 0 5 res8).2.1 (by decide)⟩

/-- Claim C9: the Executor stores a result in the Result Backend after every
handler invocation — the stored pair is exactly the handler's result, also
when that result carries a failed status — and `Executor.Execute` returns a
non-nil error exactly when the handler is not registered. -/
theorem executor_stores_every_result (e : Executor) (job : Job) :
    (∀ h, (e.registry.find? (fun p => decide (p.1 = job.name))).map Prod.snd = some h →
      Executor.Execute e job = (none, (job.id, h job) :: e.resultBackend))
    ∧ ((e.registry.find? (fun p => decide (p.1 = job.name))).map Prod.snd = none →
      Executor.Execute e job = (some ("handler not found: " ++ job.name), e.resultBackend))
    ∧ (∀ err backend, Executor.Execute e job = (some err, backend) →
      (e.registry.find? (fun p => decide (p.1 = job.name))).map Prod.snd = none) := by
  refine ⟨fun h hh => by rw [Executor.Execute, hh], fun hn => by rw [Executor.Execute, hn], ?_⟩
  intro err backend hex
  cases hfind : (e.registry.find? (fun p => decide (p.1 = job.name))).map Prod.snd with
  | none => rfl
  | some handler =>
    rw [Executor.Execute, hfind] at hex
    cases hex

/-- Witness for C9: executing `job9` on `exec9`, whose handler fails every
invocation, stores the failed result and returns no error. -/
theorem executor_stores_every_result_witness :
    Executor.Execute exec9 job9 = (none, (job9.id, failingHandler job9) :: exec9.resultBackend) :=
  (executor_stores_every_result exec9 job9).1 failingHandler rfl

/-- Claim C7: `store(jobID, result)` writes the result with TTL equal to
successTTL when the result status is "completed" and failureTTL otherwise; a
completed job's stored result is retrievable via get until successTTL
elapses, after which get returns NotFound; and get returns NotFound for any
absent job identifier. -/
theorem result_ttl_and_get (b : Backend) (jobID : String) (r : ResultR) (now t : Nat) :
    (r.status = "completed" →
      (b.store jobID r now).entries =
        (jobID, r, now + b.successTTL) :: b.entries.filter (fun e => decide (e.1 ≠ jobID)))
    ∧ (r.status ≠ "completed" →
      (b.store jobID r now).entries =
        (jobID, r, now + b.failureTTL) :: b.entries.filter (fun e => decide (e.1 ≠ jobID)))
    ∧ (r.status = "completed" → t < now + b.successTTL →
      (b.store jobID r now).get jobID t = GetOutcome.found r)
    ∧ (r.status = "completed" → now + b.successTTL ≤ t →
      (b.store jobID r now).get jobID t = GetOutcome.notFound)
    ∧ (∀ idv, (∀ e ∈ b.entries, e.1 ≠ idv) → b.get idv t = GetOutcome.notFound) := by
  refine ⟨?_, ?_, ?_, ?_, ?_⟩
  · intro hs
    rw [Backend.store]
    simp [hs]
  · intro hs
    rw [Backend.store]
    simp [hs]
  · intro hs ht
    rw [Backend.store, Backend.get]
    simp [hs, List.find?, ht]
  · intro hs ht
    rw [Backend.store, Backend.get]
    simp [hs, List.find?, Nat.not_lt_of_le ht]
  · intro idv habs
    rw [Backend.get]
    have hf : b.entries.find? (fun e => decide (e.1 = idv)) = none := by
      rw [List.find?_eq_none]
      intro e he
      simp [habs e he]
    rw [hf]

/-- Witness for C7: with successTTL = 3600, a completed result stored at
time 0 is found at time 10 and gone at time 3600; an id never stored reads
NotFound. -/
theorem result_ttl_and_get_witness :
    (bk7.store "j7" res7 0).get "j7" 10 = GetOutcome.found res7
    ∧ (bk7.store "j7" res7 0).get "j7" 3600 = GetOutcome.notFound
    ∧ bk7.get "nope" 10 = GetOutcome.notFound :=
  ⟨(result_ttl_and_get bk7 "j7" res7 0 10).2.2.1 rfl (by decide),
   (result_ttl_and_get bk7 "j7" res7 0 3600).2.2.2.1 rfl (by decide),
   (result_ttl_and_get bk7 "j7" res7 0 10).2.2.2.2 "nope" (by intro e he; cases he)⟩

/-- Claim C3: the blocking dequeue over a routing key's three queues serves
the highest-priority non-empty queue in strict high > normal > low order —
in particular, with all three non-empty it returns the head of the high
queue — each queue is consumed head-first while enqueue appends at the tail
(FIFO), and the job moves into the processing set in the same operation. -/
theorem dequeue_priority_order (rk : Option String) (st : Sys) :
    (∀ j t, st.queues (rk, Priority.high) = j :: t →
      dequeueFrom [(rk, .high), (rk, .normal), (rk, .low)] st =
        some (j, { st with
          queues := fun q => if q = (rk, Priority.high) then t else st.queues q,
          processing := j :: st.processing }))
    ∧ (∀ j t, st.queues (rk, Priority.high) = [] →
        st.queues (rk, Priority.normal) = j :: t →
      dequeueFrom [(rk, .high), (rk, .normal), (rk, .low)] st =
        some (j, { st with
          queues := fun q => if q = (rk, Priority.normal) then t else st.queues q,
          processing := j :: st.processing }))
    ∧ (∀ j t, st.queues (rk, Priority.high) = [] →
        st.queues (rk, Priority.normal) = [] →
        st.queues (rk, Priority.low) = j :: t →
      dequeueFrom [(rk, .high), (rk, .normal), (rk, .low)] st =
        some (j, { st with
          queues := fun q => if q = (rk, Priority.low) then t else st.queues q,
          processing := j :: st.processing }))
    ∧ (∀ k x, (enqueue k x st).queues k = st.queues k ++ [x]) := by
  refine ⟨?_, ?_, ?_, ?_⟩
  · intro j t hh
    simp only [dequeueFrom, hh]
  · intro j t hh hn
    simp only [dequeueFrom, hh, hn]
  · intro j t hh hn hl
    simp only [dequeueFrom, hh, hn, hl]
  · intro k x
    simp [enqueue]

/-- Witness for C3: on a state whose high/normal/low queues hold
["h1", "h2"], ["n1"], ["l1"], the dequeue returns "h1" from the high queue,
leaving ["h2"] there and pushing "h1" into the processing set. -/
theorem dequeue_priority_order_witness :
    dequeueFrom [(none, .high), (none, .normal), (none, .low)] wst =
      some ("h1", { wst with
        queues := fun q =>
          if q = ((none : Option String), Priority.high) then ["h2"] else wst.queues q,
        processing := "h1" :: wst.processing }) :=
  (dequeue_priority_order none wst).1 "h1" ["h2"] rfl

/-- Every successful dequeue takes the head of one of the scanned queues and
pushes it into the processing set, updating only that queue. -/
theorem dequeueFrom_eq_some {keys : List QueueKey} {st : Sys} {j : String} {st' : Sys}
    (h : dequeueFrom keys st = some (j, st')) :
    ∃ k ∈ keys, ∃ t, st.queues k = j :: t ∧
      st' = { st with
        queues := fun q => if q = k then t else st.queues q,
        processing := j :: st.processing } := by
  induction keys with
  | nil => simp [dequeueFrom] at h
  | cons k rest ih =>
    rw [dequeueFrom] at h
    cases hq : st.queues k with
    | nil =>
      rw [hq] at h
      obtain ⟨k', hk', t, ht, hst⟩ := ih h
      exact ⟨k', List.mem_cons_of_mem _ hk', t, ht, hst⟩
    | cons x tl =>
      rw [hq] at h
      simp only [Option.some.injEq, Prod.mk.injEq] at h
      obtain ⟨hj, hst⟩ := h
      subst hj
      exact ⟨k, List.mem_cons_self _ _, tl, hq, hst.symm⟩

/-- Claim C4: two successive dequeue operations (any interleaving of two
concurrent dequeuers serializes into this, each dequeue being one atomic
store operation) never return the same job identifier, provided the scanned
queues hold no duplicate ids; each dequeue pushes its job into the
processing set within the same operation. -/
theorem dequeue_no_duplicate_claim (keys1 keys2 : List QueueKey) (st st1 st2 : Sys)
    (j1 j2 : String)
    (hnd : ∀ k ∈ keys1, (st.queues k).Nodup)
    (hdisj : ∀ k ∈ keys1, ∀ k' ∈ keys2, k ≠ k' → ∀ x ∈ st.queues k, x ∉ st.queues k')
    (h1 : dequeueFrom keys1 st = some (j1, st1))
    (h2 : dequeueFrom keys2 st1 = some (j2, st2)) :
    j1 ≠ j2 ∧ st1.processing = j1 :: st.processing ∧ st2.processing = j2 :: st1.processing := by
  obtain ⟨k1, hk1, t1, hq1, hst1⟩ := dequeueFrom_eq_some h1
  obtain ⟨k2, hk2, t2, hq2, hst2⟩ := dequeueFrom_eq_some h2
  refine ⟨?_, by rw [hst1], by rw [hst2]⟩
  rw [hst1] at hq2
  dsimp only at hq2
  by_cases hkk : k2 = k1
  · rw [if_pos hkk] at hq2
    subst hkk
    have hnod := hnd k2 hk1
    rw [hq1] at hnod
    have hj1 : j1 ∉ t1 := (List.nodup_cons.mp hnod).1
    intro heq
    apply hj1
    rw [hq2, ← heq]
    exact List.mem_cons_self _ _
  · rw [if_neg hkk] at hq2
    have hj1 : j1 ∉ st.queues k2 :=
      hdisj k1 hk1 k2 hk2 (fun hkk2 => hkk (hkk2.symm)) j1 (by rw [hq1]; exact List.mem_cons_self _ _)
    intro heq
    apply hj1
    rw [hq2, ← heq]
    exact List.mem_cons_self _ _

/-- Witness for C4: two successive dequeues over the high/normal keys of
`wst` return "h1" then "h2", two distinct ids, each moved into the
processing set. -/
theorem dequeue_no_duplicate_claim_witness :
    "h1" ≠ "h2" ∧ wstA.processing = "h1" :: wst.processing
    ∧ wstB.processing = "h2" :: wstA.processing :=
  dequeue_no_duplicate_claim keysHN keysHN wst wstA wstB "h1" "h2"
    (by decide) (by decide) rfl rfl

/-- A Job-Specialized worker's eligible keys all carry one of its configured
routing keys. -/
theorem eligibleKeys_jobSpecialized (ks : List String) (k : QueueKey)
    (h : k ∈ eligibleKeys (WorkerMode.jobSpecialized ks)) : k.1 ∈ ks.map some := by
  induction ks with
  | nil => simp [eligibleKeys] at h
  | cons r rs ih =>
    simp only [eligibleKeys, List.foldr, List.mem_cons] at h ih
    rcases h with rfl | rfl | rfl | h
    · simp
    · simp
    · simp
    · simp [ih h]

/-- Claim C10: each worker mode restricts the queues it dequeues from —
Thin only the high queue, Default the high and normal queues, Specialized
all three priorities, Job-Specialized only its configured routing keys,
Scheduler-Only none — every dequeued job comes from an eligible queue, so a
Thin-mode dequeue only yields heads of the high queue and a Default-mode
dequeue only heads of the high or normal queue (never the low queue). -/
theorem worker_mode_eligibility (st : Sys) :
    eligibleKeys WorkerMode.thin = [(none, Priority.high)]
    ∧ eligibleKeys WorkerMode.defaultMode = [(none, Priority.high), (none, Priority.normal)]
    ∧ eligibleKeys WorkerMode.specialized =
        [(none, Priority.high), (none, Priority.normal), (none, Priority.low)]
    ∧ eligibleKeys WorkerMode.schedulerOnly = []
    ∧ (∀ ks k, k ∈ eligibleKeys (WorkerMode.jobSpecialized ks) → k.1 ∈ ks.map some)
    ∧ workerDequeue WorkerMode.schedulerOnly st = none
    ∧ (∀ m j st', workerDequeue m st = some (j, st') →
        ∃ k ∈ eligibleKeys m, ∃ t, st.queues k = j :: t)
    ∧ (∀ j st', workerDequeue WorkerMode.thin st = some (j, st') →
        ∃ t, st.queues (none, Priority.high) = j :: t)
    ∧ (∀ j st', workerDequeue WorkerMode.defaultMode st = some (j, st') →
        (∃ t, st.queues (none, Priority.high) = j :: t)
        ∨ (∃ t, st.queues (none, Priority.normal) = j :: t)) := by
  refine ⟨rfl, rfl, rfl, rfl, eligibleKeys_jobSpecialized, rfl, ?_, ?_, ?_⟩
  · intro m j st' h
    obtain ⟨k, hk, t, hq, _⟩ := dequeueFrom_eq_some h
    exact ⟨k, hk, t, hq⟩
  · intro j st' h
    obtain ⟨k, hk, t, hq, _⟩ := dequeueFrom_eq_some h
    simp only [eligibleKeys, List.mem_singleton] at hk
    subst hk
    exact ⟨t, hq⟩
  · intro j st' h
    obtain ⟨k, hk, t, hq, _⟩ := dequeueFrom_eq_some h
    simp only [eligibleKeys, List.mem_cons, List.not_mem_nil, or_false] at hk
    rcases hk with hk | hk
    · subst hk
      exact Or.inl ⟨t, hq⟩
    · subst hk
      exact Or.inr ⟨t, hq⟩

/-- Witness for C10: a Thin-mode dequeue on the fixture state returns "h1",
which is indeed the head of the high-priority queue. -/
theorem worker_mode_eligibility_witness :
    ∃ t, wst.queues (none, Priority.high) = "h1" :: t :=
  (worker_mode_eligibility wst).2.2.2.2.2.2.2.1 "h1" wstT rfl

/-- A job already in a terminal state runs no further handler invocation. -/
theorem runJob_terminal (behave : Nat → Bool) (now fuel : Nat) (j : Job)
    (h : isTerminal j.status = true) : runJob behave now fuel j = (0, j) := by
  cases fuel with
  | zero => rfl
  | succ n => simp [runJob, h]

/-- The invocation count of a run is bounded by the remaining retry budget
plus the initial invocation. -/
theorem runJob_count_le (behave : Nat → Bool) (now : Nat) :
    ∀ (fuel : Nat) (j : Job), j.attempts ≤ j.maxRetries →
      (runJob behave now fuel j).1 ≤ j.maxRetries + 1 - j.attempts := by
  intro fuel
  induction fuel with
  | zero =>
    intro j h
    simp [runJob]
  | succ n ih =>
    intro j h
    rw [runJob]
    by_cases ht : isTerminal j.status = true
    · simp [ht]
    · rw [if_neg ht]
      dsimp only
      by_cases hb : behave j.attempts = true
      · have hterm : isTerminal (stepJob behave now j).status = true := by
          simp [stepJob, hb, isTerminal]
        rw [runJob_terminal behave now n _ hterm]
        omega
      · have hstep : stepJob behave now j = jobFailure now j := by
          simp [stepJob, hb]
        rw [hstep]
        by_cases hle : j.attempts + 1 ≤ j.maxRetries
        · have hj : jobFailure now j =
              { j with
                attempts := j.attempts + 1, status := JobStatus.scheduled,
                scheduledFor := some (now + backoffDelay (j.attempts + 1)) } := by
            simp [jobFailure, hle]
          have hbound := ih (jobFailure now j) (by rw [hj]; simpa using hle)
          rw [hj] at hbound
          dsimp only at hbound
          rw [hj]
          omega
        · have hterm : isTerminal (jobFailure now j).status = true := by
            simp [jobFailure, hle, isTerminal]
          rw [runJob_terminal behave now n _ hterm]
          omega

/-- With enough fuel, a run always ends in a terminal state. -/
theorem runJob_terminates (behave : Nat → Bool) (now : Nat) :
    ∀ (fuel : Nat) (j : Job), j.attempts ≤ j.maxRetries →
      j.maxRetries + 1 - j.attempts ≤ fuel →
      isTerminal (runJob behave now fuel j).2.status = true := by
  intro fuel
  induction fuel with
  | zero =>
    intro j h hf
    omega
  | succ n ih =>
    intro j h hf
    rw [runJob]
    by_cases ht : isTerminal j.status = true
    · rw [if_pos ht]
      exact ht
    · rw [if_neg ht]
      dsimp only
      by_cases hb : behave j.attempts = true
      · have hterm : isTerminal (stepJob behave now j).status = true := by
          simp [stepJob, hb, isTerminal]
        rw [runJob_terminal behave now n _ hterm]
        exact hterm
      · have hstep : stepJob behave now j = jobFailure now j := by
          simp [stepJob, hb]
        rw [hstep]
        by_cases hle : j.attempts + 1 ≤ j.maxRetries
        · have hj : jobFailure now j =
              { j with
                attempts := j.attempts + 1, status := JobStatus.scheduled,
                scheduledFor := some (now + backoffDelay (j.attempts + 1)) } := by
            simp [jobFailure, hle]
          rw [hj]
          apply ih
          · simpa using hle
          · dsimp only
            omega
        · have hterm : isTerminal (jobFailure now j).status = true := by
            simp [jobFailure, hle, isTerminal]
          rw [runJob_terminal behave now n _ hterm]
          exact hterm

/-- Claim C1: a job with max-retry budget R executes at most R + 1 handler
invocations before reaching a terminal state (and does reach one), and the
documented scenario — "send_email", maxRetries = 3, handler failing every
invocation — executes exactly 4 attempts (1 initial + 3 retries), with
retry delays 2 s, 4 s, 8 s, before landing in the Dead Letter Queue with
status failed. -/
theorem retry_budget_and_dlq_scenario (behave : Nat → Bool) (now fuel : Nat) (j : Job)
    (h : j.attempts ≤ j.maxRetries) :
    (runJob behave now fuel j).1 ≤ j.maxRetries + 1 - j.attempts
    ∧ (j.maxRetries + 1 - j.attempts ≤ fuel →
        isTerminal (runJob behave now fuel j).2.status = true)
    ∧ (runJob (fun _ => false) 0 4 emailJob).1 = 4
    ∧ (runJob (fun _ => false) 0 4 emailJob).2.status = JobStatus.failed
    ∧ (runJob (fun _ => false) 0 4 emailJob).2.attempts = 4
    ∧ (stepJob (fun _ => false) 0 emailJob).scheduledFor = some 2
    ∧ (stepJob (fun _ => false) 0 (stepJob (fun _ => false) 0 emailJob)).scheduledFor = some 4
    ∧ (stepJob (fun _ => false) 0
        (stepJob (fun _ => false) 0 (stepJob (fun _ => false) 0 emailJob))).scheduledFor =
          some 8 :=
  ⟨runJob_count_le behave now fuel j h,
   fun hf => runJob_terminates behave now fuel j h hf,
   by decide, by decide, by decide, by decide, by decide, by decide⟩

/-- Witness for C1: the bound instantiated on the documented scenario
itself: fuel 4 suffices, at most 4 invocations happen, and the run ends
terminal. -/
theorem retry_budget_and_dlq_scenario_witness :
    (runJob (fun _ => false) 0 4 emailJob).1 ≤ emailJob.maxRetries + 1 - emailJob.attempts
    ∧ (emailJob.maxRetries + 1 - emailJob.attempts ≤ 4 →
        isTerminal (runJob (fun _ => false) 0 4 emailJob).2.status = true)
    ∧ (runJob (fun _ => false) 0 4 emailJob).1 = 4
    ∧ (runJob (fun _ => false) 0 4 emailJob).2.status = JobStatus.failed
    ∧ (runJob (fun _ => false) 0 4 emailJob).2.attempts = 4
    ∧ (stepJob (fun _ => false) 0 emailJob).scheduledFor = some 2
    ∧ (stepJob (fun _ => false) 0 (stepJob (fun _ => false) 0 emailJob)).scheduledFor = some 4
    ∧ (stepJob (fun _ => false) 0
        (stepJob (fun _ => false) 0 (stepJob (fun _ => false) 0 emailJob))).scheduledFor =
          some 8 :=
  retry_budget_and_dlq_scenario (fun _ => false) 0 4 emailJob (by decide)

/-- A not-yet-due Scheduled Set entry survives a promotion tick. -/
theorem promoteDue_keeps_pending {s now : Nat} {job : Job} {st : Sys}
    (h : (s, job) ∈ st.scheduled) (hlt : now < s) :
    (s, job) ∈ (promoteDue now st).scheduled := by
  simp only [promoteDue]
  rw [List.mem_filter]
  exact ⟨h, by simp [Nat.not_le_of_lt hlt]⟩

/-- A job id absent from a queue, with no due Scheduled Set entry carrying
it, stays absent from that queue across a promotion tick. -/
theorem promoteDue_id_not_mem {idv : String} {st : Sys} {now : Nat} {k : QueueKey}
    (hq : idv ∉ st.queues k)
    (hsched : ∀ p ∈ st.scheduled, p.1 ≤ now → p.2.id ≠ idv) :
    idv ∉ (promoteDue now st).queues k := by
  simp only [promoteDue]
  intro hmem
  rw [List.mem_append] at hmem
  rcases hmem with hmem | hmem
  · exact hq hmem
  · rw [List.mem_map] at hmem
    obtain ⟨p, hp, hid⟩ := hmem
    rw [List.mem_filter] at hp
    obtain ⟨hp1, _⟩ := hp
    rw [List.mem_filter] at hp1
    obtain ⟨hps, hpdue⟩ := hp1
    exact hsched p hps (by simpa using hpdue) hid

/-- A promotion tick removes Scheduled Set entries, never adds any. -/
theorem promoteDue_scheduled_subset {st : Sys} {now : Nat} {p : Nat × Job}
    (h : p ∈ (promoteDue now st).scheduled) : p ∈ st.scheduled := by
  simp only [promoteDue] at h
  exact (List.mem_filter.mp h).1

/-- At a tick at or after its due time, a Scheduled Set entry's job id is
enqueued into the queue of its original routing key and priority, and no
due entry remains in the Scheduled Set. -/
theorem promoteDue_promotes {s now : Nat} {job : Job} {st : Sys}
    (h : (s, job) ∈ st.scheduled) (hle : s ≤ now) :
    job.id ∈ (promoteDue now st).queues (queueKeyOf job)
    ∧ ∀ p ∈ (promoteDue now st).scheduled, ¬ p.1 ≤ now := by
  constructor
  · simp only [promoteDue]
    rw [List.mem_append]
    right
    rw [List.mem_map]
    refine ⟨(s, job), ?_, rfl⟩
    rw [List.mem_filter]
    refine ⟨?_, by simp⟩
    rw [List.mem_filter]
    exact ⟨h, by simp [hle]⟩
  · intro p hp
    simp only [promoteDue] at hp
    have hf := (List.mem_filter.mp hp).2
    simpa using hf

/-- Across any sequence of ticks all strictly before its due time, a
Scheduled Set entry stays in the Scheduled Set, stays the only entry with
its id, and its id enters no queue. -/
theorem runTicks_keeps_scheduled (s : Nat) (job : Job) :
    ∀ (times : List Nat) (st : Sys),
      (s, job) ∈ st.scheduled →
      (∀ p ∈ st.scheduled, p.2.id = job.id → p = (s, job)) →
      (∀ k, job.id ∉ st.queues k) →
      (∀ t ∈ times, t < s) →
      (s, job) ∈ (runTicks times st).scheduled
      ∧ (∀ p ∈ (runTicks times st).scheduled, p.2.id = job.id → p = (s, job))
      ∧ (∀ k, job.id ∉ (runTicks times st).queues k) := by
  intro times
  induction times with
  | nil =>
    intro st h1 h2 h3 _
    exact ⟨h1, h2, h3⟩
  | cons t ts ih =>
    intro st h1 h2 h3 h4
    have hts : t < s := h4 t (List.mem_cons_self _ _)
    have hsched : ∀ p ∈ st.scheduled, p.1 ≤ t → p.2.id ≠ job.id := by
      intro p hp hple hid
      have hps := h2 p hp hid
      rw [hps] at hple
      omega
    rw [runTicks]
    exact ih (promoteDue t st)
      (promoteDue_keeps_pending h1 hts)
      (fun p hp => h2 p (promoteDue_scheduled_subset hp))
      (fun k => promoteDue_id_not_mem (h3 k) hsched)
      (fun t' ht' => h4 t' (List.mem_cons_of_mem _ ht'))

/-- Claim C6: a job submitted for a future time sits in the Scheduled Set
and in no priority queue across every Retry/Scheduler Loop tick strictly
before its `scheduledFor` time, during which no dequeue can return it; at
the first tick at or after `scheduledFor` it is removed from the Scheduled
Set and enqueued into the queue of its original priority and routing
key. -/
theorem scheduled_job_promotion (s : Nat) (job : Job) (st : Sys) (times : List Nat)
    (hmem : (s, job) ∈ st.scheduled)
    (huniq : ∀ p ∈ st.scheduled, p.2.id = job.id → p = (s, job))
    (hq : ∀ k, job.id ∉ st.queues k)
    (htimes : ∀ t ∈ times, t < s) :
    (s, job) ∈ (runTicks times st).scheduled
    ∧ (∀ k, job.id ∉ (runTicks times st).queues k)
    ∧ (∀ keys j stx, dequeueFrom keys (runTicks times st) = some (j, stx) → j ≠ job.id)
    ∧ (∀ now, s ≤ now →
        job.id ∈ (promoteDue now (runTicks times st)).queues (queueKeyOf job)
        ∧ ∀ p ∈ (promoteDue now (runTicks times st)).scheduled, ¬ p.1 ≤ now) := by
  obtain ⟨h1, _, h3⟩ := runTicks_keeps_scheduled s job times st hmem huniq hq htimes
  refine ⟨h1, h3, ?_, fun now hnow => promoteDue_promotes h1 hnow⟩
  intro keys j stx hd heq
  obtain ⟨k, _, t, hqk, _⟩ := dequeueFrom_eq_some hd
  apply h3 k
  rw [hqk, ← heq]
  exact List.mem_cons_self _ _

/-- Witness for C6: `job6`, due at 100, stays scheduled and unqueued across
ticks at 0, 1, 2, cannot be dequeued there, and a tick at 100 enqueues it
at its normal priority. -/
theorem scheduled_job_promotion_witness :
    (100, job6) ∈ (runTicks [0, 1, 2] st6).scheduled
    ∧ (∀ k, job6.id ∉ (runTicks [0, 1, 2] st6).queues k)
    ∧ (∀ keys j stx, dequeueFrom keys (runTicks [0, 1, 2] st6) = some (j, stx) → j ≠ job6.id)
    ∧ (∀ now, 100 ≤ now →
        job6.id ∈ (promoteDue now (runTicks [0, 1, 2] st6)).queues (queueKeyOf job6)
        ∧ ∀ p ∈ (promoteDue now (runTicks [0, 1, 2] st6)).scheduled, ¬ p.1 ≤ now) :=
  scheduled_job_promotion 100 job6 st6 [0, 1, 2]
    (by decide) (by decide) (fun k => by simp [st6]) (by decide)

end Bananas
